import Mathlib

/-!
Verification of the `cherrypy` Salt NetAPI client (`cherrypy/client.go`).

The development shallowly embeds the two core operations of the client:
`Client.newRequest` (request construction: URL concatenation, JSON body
encoding with HTML escaping disabled, header assembly) and `Client.do`
(response handling: status classification, body streaming/decoding,
guaranteed body close).  Byte streams are modelled as `List Nat` of byte
values; a response body stream is a list of deliverable bytes together with
an optional read error taking the place of end-of-stream.
-/

namespace Cherrypy

/-! ### JSON values

Go's `newRequest` accepts an arbitrary `interface{}` body that is serialized
by `encoding/json`.  We embed serializable values as a JSON tree.  Mutual
inductives are used so that structural recursion over arrays and objects is
direct. -/

mutual

inductive Json : Type where
  | null : Json
  | bool (b : Bool) : Json
  | num (n : Int) : Json
  | str (s : List Char) : Json
  | arr (xs : JsonList) : Json
  | obj (fs : JsonObj) : Json

inductive JsonList : Type where
  | nil : JsonList
  | cons (hd : Json) (tl : JsonList) : JsonList

inductive JsonObj : Type where
  | nil : JsonObj
  | cons (key : List Char) (val : Json) (tl : JsonObj) : JsonObj

end

/-- Hex digit character for a value below 16 (lower case, as `encoding/json`
emits in `\u00XX` escapes). -/
def hexDigit (n : Nat) : Char :=
  if n < 10 then Char.ofNat (48 + n) else Char.ofNat (87 + n)

/-- Per-character escaping of `encoding/json` string encoding with
`SetEscapeHTML(false)` (the encoder built in `newRequest` calls
`enc.SetEscapeHTML(false)`): quote, backslash and control characters are
escaped; `<`, `>` and `&` are NOT escaped and pass through literally. -/
def escapeChar (c : Char) : List Char :=
  if c = '"' then ['\\', '"']
  else if c = '\\' then ['\\', '\\']
  else if c = '\n' then ['\\', 'n']
  else if c = '\r' then ['\\', 'r']
  else if c = '\t' then ['\\', 't']
  else if c.toNat < 32 then
    ['\\', 'u', '0', '0', hexDigit (c.toNat / 16), hexDigit (c.toNat % 16)]
  else [c]

/-- Escape every character of a string body. -/
def escapeList : List Char → List Char
  | [] => []
  | c :: rest => escapeChar c ++ escapeList rest

/-- JSON string literal encoding: quoted, characters escaped. -/
def encodeStringChars (s : List Char) : List Char :=
  '"' :: escapeList s ++ ['"']

/-- Separator emitted before the tail of a JSON array encoding. -/
def JsonList.sep : JsonList → List Char
  | .nil => []
  | .cons _ _ => [',']

/-- Separator emitted before the tail of a JSON object encoding. -/
def JsonObj.sep : JsonObj → List Char
  | .nil => []
  | .cons _ _ _ => [',']

mutual

/-- JSON serialization as performed by the `encoding/json` encoder with
HTML escaping disabled. -/
def Json.encode : Json → List Char
  | .null => "null".data
  | .bool true => "true".data
  | .bool false => "false".data
  | .num n => (toString n).data
  | .str s => encodeStringChars s
  | .arr xs => '[' :: xs.encodeElems ++ [']']
  | .obj fs => '\x7b' :: fs.encodeFields ++ ['\x7d']

/-- Comma-separated encodings of the array elements. -/
def JsonList.encodeElems : JsonList → List Char
  | .nil => []
  | .cons h t => h.encode ++ t.sep ++ t.encodeElems

/-- Comma-separated `"key":value` encodings of the object fields. -/
def JsonObj.encodeFields : JsonObj → List Char
  | .nil => []
  | .cons k v t => encodeStringChars k ++ ':' :: v.encode ++ t.sep ++ t.encodeFields

end

mutual

/-- A character occurs in the string content (string values or object keys)
of a JSON value. -/
def Json.containsChar : Json → Char → Bool
  | .null, _ => false
  | .bool _, _ => false
  | .num _, _ => false
  | .str s, c => s.elem c
  | .arr xs, c => xs.containsChar c
  | .obj fs, c => fs.containsChar c

def JsonList.containsChar : JsonList → Char → Bool
  | .nil, _ => false
  | .cons h t, c => h.containsChar c || t.containsChar c

def JsonObj.containsChar : JsonObj → Char → Bool
  | .nil, _ => false
  | .cons k v t, c => k.elem c || v.containsChar c || t.containsChar c

end

/-- Encoding step of `json.Encoder.Encode`: it writes the serialization of the value followed by
a newline character; this is the payload `newRequest` places in the request
body buffer. -/
def encoderEncode (j : Json) : List Char :=
  j.encode ++ ['\n']

/-! ### Client and request construction -/

/-- External-authentication credentials held by the client (`eauth` struct). -/
structure Eauth where
  Username : String
  Password : String
  Backend : String
deriving Repr, DecidableEq

/-- The `Client` struct: address, session token, credentials, and the
TLS-verification-skip flag of its embedded transport. -/
structure Client where
  eauth : Eauth
  Address : String
  Token : String
  skipVerify : Bool
deriving Repr, DecidableEq

/-- Constructor `NewClient`: stores credentials and address; the token starts empty. -/
def NewClient (address username password backend : String) (skipVerify : Bool) : Client :=
  { eauth := { Username := username, Password := password, Backend := backend }
    Address := address
    Token := ""
    skipVerify := skipVerify }

/-- Model of `http.Header.Set`: replaces any existing values for the key. -/
def setHeader (hs : List (String × String)) (k v : String) : List (String × String) :=
  hs.filter (fun p => p.1 ≠ k) ++ [(k, v)]

/-- Header lookup (first value for the key, `none` when the header is absent). -/
def getHeader (hs : List (String × String)) (k : String) : Option String :=
  (hs.find? (fun p => p.1 = k)).map Prod.snd

/-- A built HTTP request.  The URL is kept as the exact string passed to
`http.NewRequestWithContext` (which performs no rewriting of the path for
the URLs formed here); the body is the byte content of the JSON buffer, or
`none` when no body value was supplied. -/
structure Request where
  method : String
  url : String
  headers : List (String × String)
  body : Option (List Char)
deriving Repr, DecidableEq

/-- Embedding of `Client.newRequest` on its success path: the URL is
`fmt.Sprintf("%s/%s", c.Address, endpoint)`; a non-nil body is encoded by a
`json.Encoder` with HTML escaping disabled; `Accept` and `Content-Type` are
always set, `X-Auth-Token` only when the token is non-empty.
(`http.NewRequestWithContext` failures for malformed method/URL propagate
before any request exists and are not modelled.) -/
def Client.newRequest (c : Client) (method : String) (endpoint : String)
    (body : Option Json) : Request :=
  let url := c.Address ++ "/" ++ endpoint
  let buf := body.map encoderEncode
  let h1 := setHeader [] "Accept" "application/json"
  let h2 := setHeader h1 "Content-Type" "application/json"
  let h3 := if c.Token ≠ "" then setHeader h2 "X-Auth-Token" c.Token else h2
  { method := method, url := url, headers := h3, body := buf }

/-! ### Response execution -/

/-- The error value returned for a non-2xx response. -/
structure RequestError where
  StatusCode : Int
  Status : String
  Body : List Nat
deriving Repr, DecidableEq

/-- An HTTP response as `do` observes it.  The body stream is modelled by
the bytes it delivers (`bodyData`) followed either by end-of-stream
(`bodyReadErr = none`) or by a read error (`bodyReadErr = some e`). -/
structure Response where
  StatusCode : Int
  Status : String
  bodyData : List Nat
  bodyReadErr : Option String
deriving Repr, DecidableEq

/-- An `io.Writer` decode target: bytes written so far, and an optional
capacity after which its `Write` method reports an error (`none` = a sink
that always accepts writes). -/
structure Writer where
  contents : List Nat
  failAfter : Option Nat
deriving Repr, DecidableEq

/-- Model of `io.Copy(w, body)`: streams the deliverable bytes into the writer.
Returns the updated writer and the error `io.Copy` reports: the stream's
read error if the writer accepted everything, or a write error if the
writer failed partway. -/
def ioCopy (w : Writer) (data : List Nat) (readErr : Option String) :
    Writer × Option String :=
  match w.failAfter with
  | Option.none => ({ contents := w.contents ++ data, failAfter := Option.none }, readErr)
  | Option.some n =>
    if data.length ≤ n then
      ({ contents := w.contents ++ data, failAfter := some (n - data.length) }, readErr)
    else
      ({ contents := w.contents ++ data.take n, failAfter := some 0 }, some "short write")

/-- The `interface{}` decode target of `do`: nil, an `io.Writer`, or a
typed JSON destination currently holding a value of type `α`. -/
inductive Target (α : Type) : Type where
  | none : Target α
  | writer (w : Writer) : Target α
  | typed (a : α) : Target α
deriving Repr, DecidableEq

/-- Outcome of `json.Decoder.Decode` on a body stream: a decoded value,
`io.EOF` (empty stream), an error, or a panic raised while filling the
caller's destination. -/
inductive DecodeResult (α : Type) : Type where
  | ok (a : α) : DecodeResult α
  | eof : DecodeResult α
  | err (msg : String) : DecodeResult α
  | threw (msg : String) : DecodeResult α
deriving Repr, DecidableEq

/-- A JSON decoder for destination type `α`, reading the body stream
(deliverable bytes and optional trailing read error). -/
def Decoder (α : Type) : Type :=
  List Nat → Option String → DecodeResult α

/-- The error value of a `do` call (beyond transport errors, which occur
before any response exists). -/
inductive DoError : Type where
  | requestError (e : RequestError) : DoError
  | decodeError (msg : String) : DoError
deriving Repr, DecidableEq

/-- The observable outcome of a `do` call that received a response:
the returned response (`none` on every error path), the returned error,
the final state of the decode target, the panic escaping the call (`none`
when `do` returns normally), and whether the response body was closed
before the call ended. -/
structure DoResult (α : Type) where
  resp : Option Response
  err : Option DoError
  v : Target α
  threw : Option String
  closed : Bool
deriving Repr, DecidableEq

/-- Embedding of `Client.do` after the transport round trip delivered a response
(`c.client.Do` errors return before a body exists and are not modelled).
Mirrors the source: `defer resp.Body.Close()` makes every exit — normal
return or panic unwind — close the body, hence `closed := true` on every
branch.  A status outside [200, 299] reads the body (read error discarded)
and returns a `RequestError`; otherwise the body is streamed into a writer
target (the `io.Copy` result is discarded by the source), or decoded into a
typed target where `io.EOF` is tolerated and other errors are returned. -/
def doRequest {α : Type} (resp : Response) (v : Target α) (d : Decoder α) : DoResult α :=
  if 299 < resp.StatusCode ∨ resp.StatusCode < 200 then
    { resp := Option.none
      err := some (.requestError
        { StatusCode := resp.StatusCode, Status := resp.Status, Body := resp.bodyData })
      v := v, threw := Option.none, closed := true }
  else
    match v with
    | .none =>
      { resp := some resp, err := Option.none, v := v, threw := Option.none, closed := true }
    | .writer w =>
      let r := ioCopy w resp.bodyData resp.bodyReadErr
      { resp := some resp, err := Option.none, v := .writer r.1
        threw := Option.none, closed := true }
    | .typed a =>
      match d resp.bodyData resp.bodyReadErr with
      | .ok b =>
        { resp := some resp, err := Option.none, v := .typed b
          threw := Option.none, closed := true }
      | .eof =>
        { resp := some resp, err := Option.none, v := .typed a
          threw := Option.none, closed := true }
      | .err m =>
        { resp := Option.none, err := some (.decodeError m), v := .typed a
          threw := Option.none, closed := true }
      | .threw m =>
        { resp := Option.none, err := Option.none, v := .typed a
          threw := some m, closed := true }

/-! ### Concrete inputs used by witnesses and counterexamples -/

/-- A 500 response with body `{"error":"boom"}` (its bytes). -/
def resp500 : Response :=
  { StatusCode := 500, Status := "500 Internal Server Error"
    bodyData := [123, 34, 101, 114, 114, 111, 114, 34, 58, 34, 98, 111, 111, 109, 34, 125]
    bodyReadErr := Option.none }

/-- A 200 response whose body is the single byte `x` — not valid JSON. -/
def resp200malformed : Response :=
  { StatusCode := 200, Status := "200 OK", bodyData := [120], bodyReadErr := Option.none }

/-- A 200 response with a three-byte body that reads without error. -/
def resp200abc : Response :=
  { StatusCode := 200, Status := "200 OK", bodyData := [1, 2, 3], bodyReadErr := Option.none }

/-- A 200 response with an empty body (immediate end-of-stream). -/
def emptyResp200 : Response :=
  { StatusCode := 200, Status := "200 OK", bodyData := [], bodyReadErr := Option.none }

/-- The behaviour of `encoding/json` on the body `x`: a syntax error. -/
def invalidJsonDecoder : Decoder Nat := fun _ _ =>
  DecodeResult.err "invalid character x looking for beginning of value"

/-- A decoder faithful to `json.Decoder.Decode` on an empty stream: `io.EOF`. -/
def eofDecoder : Decoder Nat := fun data _ =>
  if data.isEmpty then DecodeResult.eof else DecodeResult.err "invalid"

/-- An empty sink that accepts every write. -/
def okWriter : Writer := { contents := [], failAfter := Option.none }

/-- A sink whose `Write` method fails immediately. -/
def failWriter : Writer := { contents := [], failAfter := some 0 }

/-! ### Helper lemmas -/

theorem mem_escapeList {c : Char} (hesc : escapeChar c = [c]) :
    ∀ {s : List Char}, c ∈ s → c ∈ escapeList s := by
  intro s h
  induction s with
  | nil => cases h
  | cons a rest ih =>
    rw [escapeList]
    rcases List.mem_cons.mp h with h1 | h2
    · subst h1
      rw [hesc]
      exact List.mem_append_left _ (List.mem_singleton_self c)
    · exact List.mem_append_right _ (ih h2)

theorem mem_encodeStringChars {c : Char} (hesc : escapeChar c = [c])
    {s : List Char} (h : c ∈ s) : c ∈ encodeStringChars s := by
  unfold encodeStringChars
  exact List.mem_cons_of_mem _ (List.mem_append_left _ (mem_escapeList hesc h))

mutual

theorem mem_encode_of_containsChar (j : Json) (c : Char)
    (hesc : escapeChar c = [c]) (h : j.containsChar c = true) : c ∈ j.encode := by
  match j with
  | .null => simp [Json.containsChar] at h
  | .bool b => simp [Json.containsChar] at h
  | .num n => simp [Json.containsChar] at h
  | .str s =>
    rw [Json.containsChar] at h
    exact mem_encodeStringChars hesc (List.mem_of_elem_eq_true h)
  | .arr xs =>
    rw [Json.containsChar] at h
    rw [Json.encode]
    exact List.mem_cons_of_mem _
      (List.mem_append_left _ (mem_encodeElems_of_containsChar xs c hesc h))
  | .obj fs =>
    rw [Json.containsChar] at h
    rw [Json.encode]
    exact List.mem_cons_of_mem _
      (List.mem_append_left _ (mem_encodeFields_of_containsChar fs c hesc h))

theorem mem_encodeElems_of_containsChar (xs : JsonList) (c : Char)
    (hesc : escapeChar c = [c]) (h : xs.containsChar c = true) : c ∈ xs.encodeElems := by
  match xs with
  | .nil => simp [JsonList.containsChar] at h
  | .cons hd tl =>
    rw [JsonList.containsChar] at h
    rw [JsonList.encodeElems]
    rcases Bool.or_eq_true_iff.mp h with h1 | h2
    · exact List.mem_append_left _
        (List.mem_append_left _ (mem_encode_of_containsChar hd c hesc h1))
    · exact List.mem_append_right _ (mem_encodeElems_of_containsChar tl c hesc h2)

theorem mem_encodeFields_of_containsChar (fs : JsonObj) (c : Char)
    (hesc : escapeChar c = [c]) (h : fs.containsChar c = true) : c ∈ fs.encodeFields := by
  match fs with
  | .nil => simp [JsonObj.containsChar] at h
  | .cons k v tl =>
    rw [JsonObj.containsChar] at h
    rw [JsonObj.encodeFields]
    rcases Bool.or_eq_true_iff.mp h with h12 | h3
    · rcases Bool.or_eq_true_iff.mp h12 with h1 | h2
      · exact List.mem_append_left _ (List.mem_append_left _
          (List.mem_append_left _ (mem_encodeStringChars hesc (List.mem_of_elem_eq_true h1))))
      · exact List.mem_append_left _ (List.mem_append_left _
          (List.mem_append_right _
            (List.mem_cons_of_mem _ (mem_encode_of_containsChar v c hesc h2))))
    · exact List.mem_append_right _ (mem_encodeFields_of_containsChar tl c hesc h3)

end

/-! ### Claim theorems -/

/-- C2: for every session-token value and every request built by
`newRequest`, the `X-Auth-Token` header is present if and only if the
client's token is non-empty at build time, and when present its value
equals the token; when the token is empty the built request carries no
auth header. -/
theorem newRequest_auth_header (c : Client) (m e : String) (b : Option Json) :
    getHeader (c.newRequest m e b).headers "X-Auth-Token" =
      if c.Token = "" then Option.none else some c.Token := by
  by_cases h : c.Token = "" <;>
    simp [Client.newRequest, setHeader, getHeader, h, List.find?]

/-- C3: for every base address and endpoint path, the URL of the built
request is the base address, a single slash, then the endpoint path —
plain string concatenation, no rewriting. -/
theorem newRequest_url_concat (c : Client) (m e : String) (b : Option Json) :
    (c.newRequest m e b).url = c.Address ++ "/" ++ e := rfl

/-- C9: for every non-nil body value, the payload is the JSON serialization
of the value followed by a trailing newline character (the behaviour of the
streaming encoder's `Encode`). -/
theorem newRequest_payload_trailing_newline (c : Client) (m e : String) (j : Json) :
    (c.newRequest m e (some j)).body = some (j.encode ++ ['\n']) ∧
    ∀ p, (c.newRequest m e (some j)).body = some p → p.getLast? = some '\n' := by
  refine ⟨rfl, ?_⟩
  intro p hp
  have hp' : j.encode ++ ['\n'] = p := by
    simpa [Client.newRequest, encoderEncode] using hp
  rw [← hp']
  exact List.getLast?_concat _

/-- C9 witness. -/
theorem newRequest_payload_trailing_newline_witness :
    ((NewClient "http://master:8000" "admin" "password" "pam" false).newRequest
      "GET" "stats" (some Json.null)).body = some (Json.null.encode ++ ['\n']) ∧
    (Json.null.encode ++ ['\n']).getLast? = some '\n' := by
  refine ⟨(newRequest_payload_trailing_newline _ "GET" "stats" Json.null).1, ?_⟩
  exact (newRequest_payload_trailing_newline
    (NewClient "http://master:8000" "admin" "password" "pam" false)
    "GET" "stats" Json.null).2 _
      (newRequest_payload_trailing_newline _ "GET" "stats" Json.null).1

/-- C8: for every call that receives a response, the response body is
closed before the call returns, on every exit path — success,
`RequestError` failure, decode error, or panic-equivalent exit during
decoding. -/
theorem doRequest_closes_body {α : Type} (resp : Response) (v : Target α) (d : Decoder α) :
    (doRequest resp v d).closed = true := by
  unfold doRequest
  split
  · rfl
  · cases v with
    | none => rfl
    | writer w => rfl
    | typed a => cases d resp.bodyData resp.bodyReadErr <;> rfl

/-- C10: for every response with status outside [200, 299], `do` returns a
nil response object together with the `RequestError`; more generally the
raw response object is handed back only on the success path (whenever a
response is returned, the error is nil and the response is the one
received). -/
theorem doRequest_resp_only_on_success {α : Type} (resp : Response) (v : Target α)
    (d : Decoder α) :
    ((resp.StatusCode < 200 ∨ 299 < resp.StatusCode) →
      (doRequest resp v d).resp = Option.none ∧
      (doRequest resp v d).err = some (DoError.requestError
        { StatusCode := resp.StatusCode, Status := resp.Status, Body := resp.bodyData })) ∧
    (∀ r, (doRequest resp v d).resp = some r →
      (doRequest resp v d).err = Option.none ∧ r = resp) := by
  constructor
  · intro h
    have hif : 299 < resp.StatusCode ∨ resp.StatusCode < 200 := h.symm
    unfold doRequest
    rw [if_pos hif]
    exact ⟨rfl, rfl⟩
  · intro r
    unfold doRequest
    split
    · intro h; cases h
    · cases v with
      | none => intro h; exact ⟨rfl, (Option.some.inj h).symm⟩
      | writer w => intro h; exact ⟨rfl, (Option.some.inj h).symm⟩
      | typed a =>
        cases d resp.bodyData resp.bodyReadErr with
        | ok b => intro h; exact ⟨rfl, (Option.some.inj h).symm⟩
        | eof => intro h; exact ⟨rfl, (Option.some.inj h).symm⟩
        | err m => intro h; cases h
        | threw m => intro h; cases h

/-- C10 witness. -/
theorem doRequest_resp_only_on_success_witness :
    (doRequest resp500 (Target.none (α := Nat)) eofDecoder).resp = Option.none ∧
    (doRequest resp500 (Target.none (α := Nat)) eofDecoder).err =
      some (DoError.requestError
        { StatusCode := resp500.StatusCode, Status := resp500.Status
          Body := resp500.bodyData }) :=
  (doRequest_resp_only_on_success resp500 Target.none eofDecoder).1 (by decide)

/-- C1 counterexample: a 200 response whose one-byte body `x` is not valid
JSON, decoded into a typed target, makes `do` return an error even though
the status is in [200, 299] — so "2xx implies no error" is false as
stated. -/
theorem doRequest_2xx_error_counterexample :
    200 ≤ resp200malformed.StatusCode ∧ resp200malformed.StatusCode ≤ 299 ∧
    (doRequest resp200malformed (Target.typed (0 : Nat)) invalidJsonDecoder).err ≠
      Option.none := by
  refine ⟨by decide, by decide, by decide⟩

/-- C1 (amended): for a status in [200, 299] `do` never returns a
`RequestError` (and with no decode target it returns the response with no
error); for a status outside that range it returns exactly the
`RequestError` carrying the response's status code, status text and the
bytes read from the body, the target is untouched, and the result does not
depend on the decoder — no decode is attempted. -/
theorem doRequest_status_classification {α : Type} (resp : Response) (v : Target α)
    (d : Decoder α) :
    (200 ≤ resp.StatusCode ∧ resp.StatusCode ≤ 299 →
      (∀ e, (doRequest resp v d).err ≠ some (DoError.requestError e)) ∧
      (v = Target.none →
        doRequest resp v d =
          { resp := some resp, err := Option.none, v := v
            threw := Option.none, closed := true })) ∧
    ((resp.StatusCode < 200 ∨ 299 < resp.StatusCode) →
      doRequest resp v d =
        { resp := Option.none
          err := some (DoError.requestError
            { StatusCode := resp.StatusCode, Status := resp.Status
              Body := resp.bodyData })
          v := v, threw := Option.none, closed := true } ∧
      ∀ d' : Decoder α, doRequest resp v d' = doRequest resp v d) := by
  constructor
  · rintro ⟨h1, h2⟩
    have hif : ¬(299 < resp.StatusCode ∨ resp.StatusCode < 200) := by omega
    constructor
    · intro e
      unfold doRequest
      rw [if_neg hif]
      cases v with
      | none => simp
      | writer w => simp
      | typed a => cases d resp.bodyData resp.bodyReadErr <;> simp
    · intro hv
      subst hv
      unfold doRequest
      rw [if_neg hif]
  · intro h
    have hif : 299 < resp.StatusCode ∨ resp.StatusCode < 200 := h.symm
    constructor
    · unfold doRequest
      rw [if_pos hif]
    · intro d'
      unfold doRequest
      rw [if_pos hif, if_pos hif]

/-- C1 (amended) witness: the failure side at a concrete 500 response. -/
theorem doRequest_status_classification_witness :
    doRequest resp500 (Target.typed (7 : Nat)) invalidJsonDecoder =
      { resp := Option.none
        err := some (DoError.requestError
          { StatusCode := resp500.StatusCode, Status := resp500.Status
            Body := resp500.bodyData })
        v := Target.typed 7, threw := Option.none, closed := true } :=
  ((doRequest_status_classification resp500 (Target.typed 7) invalidJsonDecoder).2
    (by decide)).1

/-- C5: a 2xx response with an empty body (immediate end-of-stream) and a
typed (non-byte-sink) decode target returns no error and leaves the target
unmodified; the hypothesis on the decoder is `encoding/json`'s documented
behaviour of returning `io.EOF` on an empty stream. -/
theorem doRequest_empty_body_success {α : Type} (resp : Response) (a : α) (d : Decoder α)
    (h1 : 200 ≤ resp.StatusCode) (h2 : resp.StatusCode ≤ 299)
    (hb : resp.bodyData = []) (he : resp.bodyReadErr = Option.none)
    (hd : d [] Option.none = DecodeResult.eof) :
    doRequest resp (Target.typed a) d =
      { resp := some resp, err := Option.none, v := Target.typed a
        threw := Option.none, closed := true } := by
  have hif : ¬(299 < resp.StatusCode ∨ resp.StatusCode < 200) := by omega
  unfold doRequest
  rw [if_neg hif]
  rw [show d resp.bodyData resp.bodyReadErr = DecodeResult.eof by rw [hb, he, hd]]

/-- C5 witness. -/
theorem doRequest_empty_body_success_witness :
    doRequest emptyResp200 (Target.typed (0 : Nat)) eofDecoder =
      { resp := some emptyResp200, err := Option.none, v := Target.typed 0
        threw := Option.none, closed := true } :=
  doRequest_empty_body_success emptyResp200 0 eofDecoder (by decide) (by decide)
    rfl rfl rfl

/-- C6: a 2xx response with a byte-sink decode target streams the body
bytes into the sink verbatim — the sink ends holding exactly its previous
contents followed by the response body bytes, with no error and no JSON
interpretation. -/
theorem doRequest_writer_verbatim {α : Type} (resp : Response) (w : Writer)
    (d : Decoder α)
    (h1 : 200 ≤ resp.StatusCode) (h2 : resp.StatusCode ≤ 299)
    (hw : w.failAfter = Option.none) :
    (doRequest resp (Target.writer w) d).v =
      Target.writer
        { contents := w.contents ++ resp.bodyData, failAfter := Option.none } ∧
    (doRequest resp (Target.writer w) d).err = Option.none := by
  have hif : ¬(299 < resp.StatusCode ∨ resp.StatusCode < 200) := by omega
  obtain ⟨wc, wf⟩ := w
  cases wf with
  | none => simp [doRequest, ioCopy, hif]
  | some n => simp at hw

/-- C6 witness. -/
theorem doRequest_writer_verbatim_witness :
    (doRequest resp200abc (Target.writer okWriter) eofDecoder).v =
      Target.writer
        { contents := okWriter.contents ++ resp200abc.bodyData
          failAfter := Option.none } ∧
    (doRequest resp200abc (Target.writer okWriter) eofDecoder).err = Option.none :=
  doRequest_writer_verbatim resp200abc okWriter eofDecoder (by decide) (by decide) rfl

/-- C7 counterexample: on the 2xx path with a byte-sink target whose
`Write` fails, `io.Copy` reports an error, yet `do` returns no error — the
source discards `io.Copy`'s result — so "every error arising while writing
the body into a byte-sink target propagates" is false as stated. -/
theorem doRequest_copy_error_swallowed :
    (ioCopy failWriter resp200abc.bodyData resp200abc.bodyReadErr).2 ≠ Option.none ∧
    (doRequest resp200abc (Target.writer failWriter) eofDecoder).err = Option.none ∧
    (doRequest resp200abc (Target.writer failWriter) eofDecoder).resp =
      some resp200abc := by
  refine ⟨by decide, by decide, by decide⟩

/-- C7 (amended): on the 2xx path, every JSON decode error other than the
empty-body end-of-stream case propagates unmodified to the caller, while
errors of the copy into a byte-sink target are silently discarded — the
byte-sink path never returns an error. -/
theorem doRequest_error_propagation {α : Type} (resp : Response)
    (h1 : 200 ≤ resp.StatusCode) (h2 : resp.StatusCode ≤ 299) :
    (∀ (a : α) (d : Decoder α) (m : String),
      d resp.bodyData resp.bodyReadErr = DecodeResult.err m →
      (doRequest resp (Target.typed a) d).err = some (DoError.decodeError m) ∧
      (doRequest resp (Target.typed a) d).resp = Option.none) ∧
    (∀ (w : Writer) (d : Decoder α),
      (doRequest resp (Target.writer w) d).err = Option.none) := by
  have hif : ¬(299 < resp.StatusCode ∨ resp.StatusCode < 200) := by omega
  constructor
  · intro a d m hd
    unfold doRequest
    rw [if_neg hif, hd]
    exact ⟨rfl, rfl⟩
  · intro w d
    unfold doRequest
    rw [if_neg hif]

/-- C7 (amended) witness: a concrete malformed-JSON decode error
propagates. -/
theorem doRequest_error_propagation_witness :
    (doRequest resp200malformed (Target.typed (0 : Nat)) invalidJsonDecoder).err =
      some (DoError.decodeError
        "invalid character x looking for beginning of value") ∧
    (doRequest resp200malformed (Target.typed (0 : Nat)) invalidJsonDecoder).resp =
      Option.none :=
  (doRequest_error_propagation resp200malformed (by decide) (by decide)).1
    0 invalidJsonDecoder _ rfl

/-- C4: for every non-nil body value whose string content holds `<`, `>`
or `&`, the payload produced by `newRequest` holds the literal character —
the escaper maps these characters to themselves (no `<`-style escape
sequence is produced for them) and the character appears in the body
bytes. -/
theorem newRequest_literal_html_chars (cl : Client) (m e : String) (j : Json)
    (c : Char) (hc : c = '<' ∨ c = '>' ∨ c = '&')
    (hj : j.containsChar c = true) :
    escapeChar c = [c] ∧
    ∃ payload, (cl.newRequest m e (some j)).body = some payload ∧ c ∈ payload := by
  have hesc : escapeChar c = [c] := by
    rcases hc with h | h | h <;> subst h <;> rfl
  exact ⟨hesc, j.encode ++ ['\n'], rfl,
    List.mem_append_left _ (mem_encode_of_containsChar j c hesc hj)⟩

/-- C4 witness: the body value is the JSON string `a<b`. -/
theorem newRequest_literal_html_chars_witness :
    escapeChar '<' = ['<'] ∧
    ∃ payload,
      ((NewClient "http://master:8000" "admin" "password" "pam" false).newRequest
        "POST" "login" (some (Json.str ['a', '<', 'b']))).body = some payload ∧
      '<' ∈ payload :=
  newRequest_literal_html_chars _ "POST" "login" (Json.str ['a', '<', 'b']) '<'
    (Or.inl rfl) (by decide)

end Cherrypy
